import Mathlib

/-!
Shallow embedding of the rule evaluation and risk-scoring engine of
`src/src/services/ruleEngine.js` (class `RuleEngine`), together with proofs
of the behavioural properties claimed about it.

Modelling conventions:
* JavaScript `Map` objects are association lists (`List (String × α)`) with
  JS `Map.set` semantics: replacing in place when the key exists, appending
  otherwise, so insertion order is preserved.
* A rule predicate (`rule.evaluate`) is a function
  `InputData → Except String EvalOutput`: `Except.error msg` models a thrown
  or rejected promise whose error has message `msg`.
* A possibly `null`/`undefined` snapshot argument is `Option InputData`;
  `none` is `null`. The snapshot itself is opaque to the engine and is
  modelled as a list of named sections.
* JS number arithmetic on the small ratios involved is modelled exactly with
  `ℚ`; `Math.round` (round half up on the non-negative values occurring
  here) is `jsRound q = ⌊q + 1/2⌋`.
* Exceptions that can escape a function are `Except JsErr`; code that cannot
  throw is a plain function.
-/

/-- JS runtime errors that can escape engine entry points. -/
inductive JsErr where
  | typeError (msg : String)
  deriving DecidableEq, Repr

/-- The status strings a RuleOutcome can carry. -/
inductive Status where
  | PASS
  | FAIL
  | SKIP
  | ERROR
  deriving DecidableEq, Repr

/-- The snapshot (`inputData`): opaque named sections.  The engine never
looks inside a section's content, so content is an opaque `String`. -/
def InputData := List (String × String)

/-- What a rule predicate resolves to:
`{passed, message, details?, findings?, evidence?}`.  `details` and
`evidence` are free-form; they are opaque `String`s here. -/
structure EvalOutput where
  passed : Bool
  message : String
  details : Option String := none
  findings : Option (List String) := none
  evidence : Option String := none

/-- A compliance framework: `{code, name, version, description}`. -/
structure Framework where
  code : String
  name : String
  version : String
  description : String := ""

/-- A compliance rule.  `remediation` is `Option` because the source reads
`rule.remediation || 'No remediation provided'` (absent field). -/
structure Rule where
  code : String
  framework : String
  title : String
  description : String := ""
  category : String
  severity : String
  remediation : Option String := none
  evaluate : InputData → Except String EvalOutput

/-- The per-rule outcome object built by `executeRule` (and by the
error handler in `executeFrameworkRules`).  `findings`/`evidence` are
`Option` because those properties are only assigned on failure;
`details` starts as the empty object (here `""`). -/
structure RuleOutcome where
  rule_code : String
  rule_title : String
  status : Status
  message : String
  details : String := ""
  findings : Option (List String) := none
  evidence : Option String := none
  severity : String
  category : String
  remediation : String := "No remediation provided"
  deriving DecidableEq, Repr

/-- Per-framework aggregate (`executeFrameworkRules` result object). -/
structure FrameworkResult where
  framework : String
  framework_code : String
  version : String
  total : ℕ
  passed : ℕ
  failed : ℕ
  skipped : ℕ
  compliance_percentage : ℤ
  risk_score : ℤ
  rule_results : List RuleOutcome

/-- `summarizeInputData`'s result.  `total_size` abstracts
`JSON.stringify(inputData).length` (snapshot content is opaque to the
engine) as the number of sections. -/
structure InputSummary where
  data_sources : List String
  total_size : ℕ
  has_system_info : Bool
  has_security_config : Bool
  has_services : Bool
  has_network : Bool
  deriving DecidableEq, Repr

/-- Top-level `executeCompliance` result object.  `session_id` and
`timestamp` are nondeterministic identifiers with no behavioural role and
are abstracted to fixed placeholders. -/
structure EvalResult where
  session_id : String := "session"
  input_data_summary : InputSummary
  frameworks_tested : List String
  total_rules : ℕ
  passed_rules : ℕ
  failed_rules : ℕ
  skipped_rules : ℕ
  overall_risk_score : ℤ
  framework_results : List (String × FrameworkResult)
  detailed_results : List RuleOutcome

/-- The filter criteria (`options`): `none` models a `null`/absent filter. -/
structure Criteria where
  frameworks : Option (List String) := none
  categories : Option (List String) := none
  severity : Option (List String) := none

/-- JS `Map.get` on an association list. -/
def mapGet (m : List (String × α)) (k : String) : Option α :=
  (m.find? (fun p => p.1 = k)).map (fun p => p.2)

/-- JS `Map.set` on an association list: replace in place or append. -/
def mapSet (m : List (String × α)) (k : String) (v : α) : List (String × α) :=
  if m.any (fun p => p.1 = k) then
    m.map (fun p => if p.1 = k then (k, v) else p)
  else
    m ++ [(k, v)]

/-- The engine's registries (`this.rules`, `this.frameworks`). -/
structure Engine where
  rules : List (String × Rule) := []
  frameworks : List (String × Framework) := []

/-- The composite rule key `framework:code`. -/
def ruleKey (r : Rule) : String :=
  r.framework ++ ":" ++ r.code

/-- `registerFramework(framework)`: keyed by `framework.code`. -/
def registerFramework (e : Engine) (f : Framework) : Engine :=
  { e with frameworks := mapSet e.frameworks f.code f }

/-- `registerRule(rule)`: throws when `rule.framework` is not a registered
framework code; otherwise inserts/replaces under `framework:code`. -/
def registerRule (e : Engine) (r : Rule) : Except JsErr Engine :=
  if (mapGet e.frameworks r.framework).isSome then
    Except.ok { e with rules := mapSet e.rules (ruleKey r) r }
  else
    Except.error (JsErr.typeError ("Framework " ++ r.framework ++ " not registered"))

/-- JS `Math.round` on the non-negative values occurring here:
round half up, `⌊q + 1/2⌋`. -/
def jsRound (q : ℚ) : ℤ :=
  ⌊q + 1 / 2⌋

/-- `getSeverityWeight(severity)`: table lookup with `|| 1` default. -/
def getSeverityWeight (severity : String) : ℕ :=
  if severity = "low" then 1
  else if severity = "medium" then 2
  else if severity = "high" then 3
  else if severity = "critical" then 4
  else 1

/-- `executeRule(rule, inputData)`: builds the outcome object, runs the
predicate inside try/catch, and never throws itself (every exception from
the predicate is converted to a `status=ERROR` outcome here). -/
def executeRule (rule : Rule) (inputData : InputData) : RuleOutcome :=
  let base : RuleOutcome :=
    { rule_code := rule.code
      rule_title := rule.title
      status := Status.SKIP
      message := ""
      details := ""
      severity := rule.severity
      category := rule.category
      remediation := rule.remediation.getD "No remediation provided" }
  match rule.evaluate inputData with
  | Except.ok evaluation =>
      { base with
        status := if evaluation.passed then Status.PASS else Status.FAIL
        message := evaluation.message
        details := evaluation.details.getD ""
        findings := if evaluation.passed then none else some (evaluation.findings.getD [])
        evidence := if evaluation.passed then none else some (evaluation.evidence.getD "") }
  | Except.error err =>
      { base with
        status := Status.ERROR
        message := "Rule evaluation error: " ++ err }

/-- Total severity weight of the non-SKIP outcomes in a list
(the denominator accumulated by `calculateFrameworkRiskScore`). -/
def totalWeight (outcomes : List RuleOutcome) : ℕ :=
  (outcomes.filter (fun o => o.status ≠ Status.SKIP)).foldl
    (fun acc o => acc + getSeverityWeight o.severity) 0

/-- Total severity weight of the FAIL outcomes in a list
(the numerator accumulated by `calculateFrameworkRiskScore`). -/
def weightedFailures (outcomes : List RuleOutcome) : ℕ :=
  (outcomes.filter (fun o => o.status = Status.FAIL)).foldl
    (fun acc o => acc + getSeverityWeight o.severity) 0

/-- `calculateFrameworkRiskScore(frameworkResult)`: early 0 when
`total - skipped == 0`, otherwise severity-weighted failure percentage
over the non-SKIP outcomes, 0 when the total weight is 0. -/
def calculateFrameworkRiskScore (fr : FrameworkResult) : ℤ :=
  if (fr.total : ℤ) - (fr.skipped : ℤ) = 0 then 0
  else
    let tw := totalWeight fr.rule_results
    let wf := weightedFailures fr.rule_results
    if 0 < tw then jsRound ((wf : ℚ) / (tw : ℚ) * 100) else 0

/-- The counter update of the `switch (ruleResult.status)` statement in
`executeFrameworkRules`: it has cases for PASS, FAIL and SKIP only, so an
ERROR outcome increments no counter. -/
def statusCounters : Status → ℕ × ℕ × ℕ
  | Status.PASS => (1, 0, 0)
  | Status.FAIL => (0, 1, 0)
  | Status.SKIP => (0, 0, 1)
  | Status.ERROR => (0, 0, 0)

/-- The body of `executeFrameworkRules(frameworkCode, rules, inputData)`
after the framework lookup succeeded.  `executeRule` catches every
predicate exception internally, so the surrounding try/catch of the source
(which would push an `Execution error:` outcome and increment `failed`) is
unreachable and the loop is a pure fold over `executeRule`. -/
def runFrameworkRules (framework : Framework) (frameworkCode : String)
    (rules : List Rule) (inputData : InputData) : FrameworkResult :=
  let outcomes := rules.map (fun r => executeRule r inputData)
  let passed := (outcomes.filter (fun o => (statusCounters o.status).1 = 1)).length
  let failed := (outcomes.filter (fun o => (statusCounters o.status).2.1 = 1)).length
  let skipped := (outcomes.filter (fun o => (statusCounters o.status).2.2 = 1)).length
  let total := rules.length
  let partial0 : FrameworkResult :=
    { framework := framework.name
      framework_code := frameworkCode
      version := framework.version
      total := total
      passed := passed
      failed := failed
      skipped := skipped
      compliance_percentage := 0
      risk_score := 0
      rule_results := outcomes }
  let compliance : ℤ :=
    if 0 < total then
      jsRound ((passed : ℚ) / ((total : ℚ) - (skipped : ℚ)) * 100)
    else 0
  { partial0 with
    compliance_percentage := compliance
    risk_score := calculateFrameworkRiskScore partial0 }

/-- `executeFrameworkRules` proper: `this.frameworks.get(frameworkCode)`
followed by property accesses on the result, which throw a `TypeError`
when the framework is absent. -/
def executeFrameworkRules (e : Engine) (frameworkCode : String)
    (rules : List Rule) (inputData : InputData) : Except JsErr FrameworkResult :=
  match mapGet e.frameworks frameworkCode with
  | none => Except.error (JsErr.typeError "Cannot read properties of undefined")
  | some framework => Except.ok (runFrameworkRules framework frameworkCode rules inputData)

/-- `filterRules(frameworks, categories, severity)`: each filter applies
only when it is non-null and non-empty (`frameworks && frameworks.length > 0`). -/
def filterRules (e : Engine) (frameworks categories severity : Option (List String)) :
    List Rule :=
  let r0 := e.rules.map (fun p => p.2)
  let r1 := match frameworks with
    | some fs => if 0 < fs.length then r0.filter (fun r => fs.contains r.framework) else r0
    | none => r0
  let r2 := match categories with
    | some cs => if 0 < cs.length then r1.filter (fun r => cs.contains r.category) else r1
    | none => r1
  let r3 := match severity with
    | some ss => if 0 < ss.length then r2.filter (fun r => ss.contains r.severity) else r2
    | none => r2
  r3

/-- One step of the `reduce` in `groupRulesByFramework`: append the rule to
its framework's bucket, creating the bucket on first sight. -/
def groupInsert (groups : List (String × List Rule)) (r : Rule) :
    List (String × List Rule) :=
  if groups.any (fun p => p.1 = r.framework) then
    groups.map (fun p => if p.1 = r.framework then (p.1, p.2 ++ [r]) else p)
  else
    groups ++ [(r.framework, [r])]

/-- `groupRulesByFramework(rules)`: object keyed by framework code,
first-seen key order, per-bucket rule order preserved. -/
def groupRulesByFramework (rules : List Rule) : List (String × List Rule) :=
  rules.foldl groupInsert []

/-- `calculateRiskScore(results)`: reads `total_rules`, `failed_rules`,
`skipped_rules` from the results object; unweighted failure percentage,
0 when `total_rules` is 0 or `total_rules - skipped_rules` is 0. -/
def calculateRiskScore (total_rules failed_rules skipped_rules : ℕ) : ℤ :=
  if total_rules = 0 then 0
  else if (total_rules : ℤ) - (skipped_rules : ℤ) = 0 then 0
  else jsRound ((failed_rules : ℚ) / ((total_rules : ℚ) - (skipped_rules : ℚ)) * 100)

/-- `summarizeInputData(inputData)`: `Object.keys(inputData)` throws a
`TypeError` on `null`/`undefined`; absent sections of a non-null snapshot
are merely reported as `false` flags. -/
def summarizeInputData (inputData : Option InputData) : Except JsErr InputSummary :=
  match inputData with
  | none => Except.error (JsErr.typeError "Cannot convert undefined or null to object")
  | some d =>
      Except.ok
        { data_sources := d.map (fun p => p.1)
          total_size := d.length
          has_system_info := (mapGet d "system_info").isSome
          has_security_config := (mapGet d "security_config").isSome
          has_services := (mapGet d "services").isSome
          has_network := (mapGet d "network").isSome }

/-- The per-framework loop of `executeCompliance`: runs each group through
`executeFrameworkRules`, propagating any thrown error.  The second
component traces the composite keys of rules whose predicate was invoked
(on a missing framework the `TypeError` fires before that group's rule
loop, so none of that group's predicates run). -/
def runGroups (e : Engine) (inputData : InputData) :
    List (String × List Rule) →
      Except JsErr (List (String × FrameworkResult)) × List String
  | [] => (Except.ok [], [])
  | (code, rs) :: rest =>
      match executeFrameworkRules e code rs inputData with
      | Except.error err => (Except.error err, [])
      | Except.ok fr =>
          let tail := runGroups e inputData rest
          match tail.1 with
          | Except.error err => (Except.error err, rs.map ruleKey ++ tail.2)
          | Except.ok frs => (Except.ok ((code, fr) :: frs), rs.map ruleKey ++ tail.2)

/-- `executeCompliance(inputData, options)`, instrumented: the second
component is the trace of composite keys of the rules whose predicate was
invoked, in invocation order.  The input summary is computed while the
result object is constructed, before any rule is selected or executed, so
a `null` snapshot throws with an empty trace. -/
def executeComplianceT (e : Engine) (inputData : Option InputData)
    (options : Criteria) : Except JsErr EvalResult × List String :=
  match summarizeInputData inputData with
  | Except.error err => (Except.error err, [])
  | Except.ok summary =>
      match inputData with
      | none => (Except.error (JsErr.typeError "unreachable"), [])
      | some d =>
          let rulesToExecute := filterRules e options.frameworks options.categories options.severity
          let groups := groupRulesByFramework rulesToExecute
          let ran := runGroups e d groups
          match ran.1 with
          | Except.error err => (Except.error err, ran.2)
          | Except.ok frs =>
              let passed := (frs.map (fun p => p.2.passed)).sum
              let failed := (frs.map (fun p => p.2.failed)).sum
              let skipped := (frs.map (fun p => p.2.skipped)).sum
              (Except.ok
                { input_data_summary := summary
                  frameworks_tested := groups.map (fun p => p.1)
                  total_rules := rulesToExecute.length
                  passed_rules := passed
                  failed_rules := failed
                  skipped_rules := skipped
                  overall_risk_score := calculateRiskScore rulesToExecute.length failed skipped
                  framework_results := frs
                  detailed_results := frs.foldr (fun p acc => p.2.rule_results ++ acc) [] },
               ran.2)

/-- `executeCompliance` as observed by callers. -/
def executeCompliance (e : Engine) (inputData : Option InputData)
    (options : Criteria) : Except JsErr EvalResult :=
  (executeComplianceT e inputData options).1

/-- The registry invariant `registerRule` maintains: every registered
rule's framework code is itself registered. -/
def WellFormedEngine (e : Engine) : Prop :=
  ∀ p ∈ e.rules, (mapGet e.frameworks p.2.framework).isSome = true

/-! ## Concrete fixtures (snapshots, frameworks, rules, outcomes) -/

def sampleInput : InputData := [("system_info", "info")]

def fwA : Framework := { code := "A", name := "Framework A", version := "1.0" }

def fwB : Framework := { code := "B", name := "Framework B", version := "1.0" }

def boomRule : Rule :=
  { code := "R1", framework := "A", title := "Boom", category := "cat"
    severity := "critical", evaluate := fun _ => Except.error "boom" }

def passRule : Rule :=
  { code := "R2", framework := "A", title := "Pass", category := "cat"
    severity := "low", evaluate := fun _ => Except.ok { passed := true, message := "ok" } }

def failRule : Rule :=
  { code := "R3", framework := "B", title := "Fail", category := "net"
    severity := "high", evaluate := fun _ => Except.ok { passed := false, message := "bad" } }

def sampleEngine : Engine :=
  { frameworks := [("A", fwA), ("B", fwB)]
    rules := [("A:R1", boomRule), ("A:R2", passRule), ("B:R3", failRule)] }

/-- Placeholder result used only as the default of `Except.getD`. -/
def dummyResult : EvalResult :=
  { input_data_summary :=
      { data_sources := [], total_size := 0, has_system_info := false
        has_security_config := false, has_services := false, has_network := false }
    frameworks_tested := [], total_rules := 0, passed_rules := 0
    failed_rules := 0, skipped_rules := 0, overall_risk_score := 0
    framework_results := [], detailed_results := [] }

/-- A full engine run on the sample engine with empty criteria. -/
def sampleRun : Except JsErr EvalResult × List String :=
  executeComplianceT sampleEngine (some sampleInput) {}

def sampleRes : EvalResult := sampleRun.1.toOption.getD dummyResult

/-- An engine holding only the erroring rule, to observe how an ERROR
outcome is counted. -/
def boomEngine : Engine :=
  { frameworks := [("A", fwA)], rules := [("A:R1", boomRule)] }

def boomRun : Except JsErr EvalResult × List String :=
  executeComplianceT boomEngine (some sampleInput) {}

def boomRes : EvalResult := boomRun.1.toOption.getD dummyResult

/-- A run whose frameworks filter names only an unregistered code. -/
def unregisteredRun : Except JsErr EvalResult × List String :=
  executeComplianceT sampleEngine (some sampleInput) { frameworks := some ["Z"] }

def unregisteredRes : EvalResult := unregisteredRun.1.toOption.getD dummyResult

def outFailCritical : RuleOutcome :=
  { rule_code := "r1", rule_title := "t1", status := Status.FAIL, message := "m"
    severity := "critical", category := "c" }

def outPassLow : RuleOutcome :=
  { rule_code := "r2", rule_title := "t2", status := Status.PASS, message := "m"
    severity := "low", category := "c" }

def outFailLow : RuleOutcome :=
  { rule_code := "r3", rule_title := "t3", status := Status.FAIL, message := "m"
    severity := "low", category := "c" }

def frExample : FrameworkResult :=
  { framework := "Framework A", framework_code := "A", version := "1.0"
    total := 2, passed := 1, failed := 1, skipped := 0
    compliance_percentage := 50, risk_score := 0
    rule_results := [outFailCritical, outPassLow] }

/-! ## Basic structural lemmas -/

lemma statusCounters_fst_eq_one (s : Status) :
    (statusCounters s).1 = 1 ↔ s = Status.PASS := by
  cases s <;> simp [statusCounters]

lemma statusCounters_snd_fst_eq_one (s : Status) :
    (statusCounters s).2.1 = 1 ↔ s = Status.FAIL := by
  cases s <;> simp [statusCounters]

lemma statusCounters_snd_snd_eq_one (s : Status) :
    (statusCounters s).2.2 = 1 ↔ s = Status.SKIP := by
  cases s <;> simp [statusCounters]

lemma executeRule_status (rule : Rule) (inputData : InputData) :
    (executeRule rule inputData).status =
      match rule.evaluate inputData with
      | Except.ok ev => if ev.passed then Status.PASS else Status.FAIL
      | Except.error _ => Status.ERROR := by
  unfold executeRule
  cases rule.evaluate inputData <;> rfl

lemma executeRule_status_ne_skip (rule : Rule) (inputData : InputData) :
    (executeRule rule inputData).status ≠ Status.SKIP := by
  rw [executeRule_status]
  cases h : rule.evaluate inputData with
  | ok ev => by_cases hp : ev.passed <;> simp [hp]
  | error e => simp

lemma runFrameworkRules_rule_results (fw : Framework) (code : String)
    (rules : List Rule) (inputData : InputData) :
    (runFrameworkRules fw code rules inputData).rule_results =
      rules.map (fun r => executeRule r inputData) := rfl

lemma runFrameworkRules_total (fw : Framework) (code : String)
    (rules : List Rule) (inputData : InputData) :
    (runFrameworkRules fw code rules inputData).total = rules.length := rfl

lemma runFrameworkRules_passed (fw : Framework) (code : String)
    (rules : List Rule) (inputData : InputData) :
    (runFrameworkRules fw code rules inputData).passed =
      ((rules.map (fun r => executeRule r inputData)).filter
        (fun o => o.status = Status.PASS)).length := by
  show ((rules.map (fun r => executeRule r inputData)).filter
      (fun o => (statusCounters o.status).1 = 1)).length = _
  congr 1
  apply List.filter_congr
  intro o _
  simp [statusCounters_fst_eq_one]

lemma runFrameworkRules_failed (fw : Framework) (code : String)
    (rules : List Rule) (inputData : InputData) :
    (runFrameworkRules fw code rules inputData).failed =
      ((rules.map (fun r => executeRule r inputData)).filter
        (fun o => o.status = Status.FAIL)).length := by
  show ((rules.map (fun r => executeRule r inputData)).filter
      (fun o => (statusCounters o.status).2.1 = 1)).length = _
  congr 1
  apply List.filter_congr
  intro o _
  simp [statusCounters_snd_fst_eq_one]

lemma runFrameworkRules_skipped (fw : Framework) (code : String)
    (rules : List Rule) (inputData : InputData) :
    (runFrameworkRules fw code rules inputData).skipped = 0 := by
  show ((rules.map (fun r => executeRule r inputData)).filter
      (fun o => (statusCounters o.status).2.2 = 1)).length = 0
  rw [List.length_eq_zero, List.filter_eq_nil_iff]
  intro o ho
  rw [List.mem_map] at ho
  obtain ⟨r, _, rfl⟩ := ho
  simp only [statusCounters_snd_snd_eq_one, decide_eq_true_eq]
  exact executeRule_status_ne_skip r inputData

/-! ## Severity-weight lemmas -/

lemma one_le_getSeverityWeight (s : String) : 1 ≤ getSeverityWeight s := by
  unfold getSeverityWeight
  split_ifs <;> omega

lemma foldl_add_weight (l : List RuleOutcome) (n : ℕ) :
    l.foldl (fun acc o => acc + getSeverityWeight o.severity) n =
      n + (l.map (fun o => getSeverityWeight o.severity)).sum := by
  induction l generalizing n with
  | nil => simp
  | cons o t ih =>
      simp only [List.foldl_cons, List.map_cons, List.sum_cons, ih]
      omega

lemma totalWeight_eq (l : List RuleOutcome) :
    totalWeight l =
      ((l.filter (fun o => o.status ≠ Status.SKIP)).map
        (fun o => getSeverityWeight o.severity)).sum := by
  unfold totalWeight
  rw [foldl_add_weight]
  omega

lemma weightedFailures_eq (l : List RuleOutcome) :
    weightedFailures l =
      ((l.filter (fun o => o.status = Status.FAIL)).map
        (fun o => getSeverityWeight o.severity)).sum := by
  unfold weightedFailures
  rw [foldl_add_weight]
  omega

lemma totalWeight_cons (o : RuleOutcome) (t : List RuleOutcome) :
    totalWeight (o :: t) =
      (if o.status = Status.SKIP then 0 else getSeverityWeight o.severity) +
        totalWeight t := by
  rw [totalWeight_eq, totalWeight_eq, List.filter_cons]
  by_cases h : o.status = Status.SKIP <;> simp [h]

lemma weightedFailures_cons (o : RuleOutcome) (t : List RuleOutcome) :
    weightedFailures (o :: t) =
      (if o.status = Status.FAIL then getSeverityWeight o.severity else 0) +
        weightedFailures t := by
  rw [weightedFailures_eq, weightedFailures_eq, List.filter_cons]
  by_cases h : o.status = Status.FAIL <;> simp [h]

lemma weightedFailures_le_totalWeight (l : List RuleOutcome) :
    weightedFailures l ≤ totalWeight l := by
  induction l with
  | nil => simp [totalWeight, weightedFailures]
  | cons o t ih =>
      rw [totalWeight_cons, weightedFailures_cons]
      by_cases hf : o.status = Status.FAIL
      · have hs : ¬ o.status = Status.SKIP := by rw [hf]; intro h; cases h
        rw [if_pos hf, if_neg hs]
        omega
      · rw [if_neg hf]
        split_ifs <;> omega

lemma totalWeight_eq_zero_iff (l : List RuleOutcome) :
    totalWeight l = 0 ↔ ∀ o ∈ l, o.status = Status.SKIP := by
  induction l with
  | nil => simp [totalWeight]
  | cons o t ih =>
      rw [totalWeight_cons]
      by_cases h : o.status = Status.SKIP
      · simp [h, ih]
      · have hw := one_le_getSeverityWeight o.severity
        simp only [h, if_false]
        constructor
        · intro hz
          omega
        · intro hall
          exact absurd (hall o (List.mem_cons_self o t)) h

lemma skip_count_eq_length_iff (l : List RuleOutcome) :
    ((l.filter (fun o => o.status = Status.SKIP)).length = l.length) ↔
      ∀ o ∈ l, o.status = Status.SKIP := by
  constructor
  · intro h o ho
    have := (List.filter_length_eq_length (l := l)
      (p := fun o => decide (o.status = Status.SKIP))).mp h o ho
    simpa using this
  · intro h
    apply (List.filter_length_eq_length (l := l)
      (p := fun o => decide (o.status = Status.SKIP))).mpr
    intro o ho
    simpa using h o ho

/-- C3 helper: `calculateFrameworkRiskScore` as the spec's weighted
formula, whenever the counter fields agree with the outcome list. -/
lemma calculateFrameworkRiskScore_formula (fr : FrameworkResult)
    (htotal : fr.total = fr.rule_results.length)
    (hskip : fr.skipped = (fr.rule_results.filter (fun o => o.status = Status.SKIP)).length) :
    calculateFrameworkRiskScore fr =
      if totalWeight fr.rule_results = 0 then 0
      else jsRound ((weightedFailures fr.rule_results : ℚ) /
        (totalWeight fr.rule_results : ℚ) * 100) := by
  unfold calculateFrameworkRiskScore
  by_cases hz : totalWeight fr.rule_results = 0
  · have hall := (totalWeight_eq_zero_iff fr.rule_results).mp hz
    have hcount : (fr.rule_results.filter (fun o => o.status = Status.SKIP)).length =
        fr.rule_results.length := (skip_count_eq_length_iff fr.rule_results).mpr hall
    have hts : (fr.total : ℤ) - (fr.skipped : ℤ) = 0 := by
      rw [htotal, hskip, hcount]
      ring
    simp [hts, hz]
  · have hnall : ¬ ∀ o ∈ fr.rule_results, o.status = Status.SKIP :=
      fun hall => hz ((totalWeight_eq_zero_iff fr.rule_results).mpr hall)
    have hcount : (fr.rule_results.filter (fun o => o.status = Status.SKIP)).length ≠
        fr.rule_results.length :=
      fun h => hnall ((skip_count_eq_length_iff fr.rule_results).mp h)
    have hle : (fr.rule_results.filter (fun o => o.status = Status.SKIP)).length ≤
        fr.rule_results.length := List.length_filter_le _ _
    have hts : (fr.total : ℤ) - (fr.skipped : ℤ) ≠ 0 := by
      rw [htotal, hskip]
      omega
    have hpos : 0 < totalWeight fr.rule_results := Nat.pos_of_ne_zero hz
    simp [hts, hz, hpos]

/-! ## Rounding lemmas -/

lemma jsRound_mono {q r : ℚ} (h : q ≤ r) : jsRound q ≤ jsRound r :=
  Int.floor_le_floor (by linarith)

lemma jsRound_nonneg {q : ℚ} (h : 0 ≤ q) : 0 ≤ jsRound q := by
  unfold jsRound
  rw [Int.le_floor]
  push_cast
  linarith

lemma jsRound_le_hundred {q : ℚ} (h : q ≤ 100) : jsRound q ≤ 100 := by
  unfold jsRound
  have h2 : ⌊(100 : ℚ) + 1 / 2⌋ = 100 := by norm_num
  calc ⌊q + 1 / 2⌋ ≤ ⌊(100 : ℚ) + 1 / 2⌋ := Int.floor_le_floor (by linarith)
    _ = 100 := h2

lemma ratio_bounds {a b : ℕ} (hab : a ≤ b) (hb : 0 < b) :
    0 ≤ (a : ℚ) / (b : ℚ) * 100 ∧ (a : ℚ) / (b : ℚ) * 100 ≤ 100 := by
  have hb' : (0 : ℚ) < (b : ℚ) := by exact_mod_cast hb
  have hab' : (a : ℚ) ≤ (b : ℚ) := by exact_mod_cast hab
  constructor
  · positivity
  · rw [div_mul_eq_mul_div, div_le_iff₀ hb']
    nlinarith

lemma calculateFrameworkRiskScore_bounds (fr : FrameworkResult) :
    0 ≤ calculateFrameworkRiskScore fr ∧ calculateFrameworkRiskScore fr ≤ 100 := by
  unfold calculateFrameworkRiskScore
  dsimp only
  split_ifs with h1 h2
  · exact ⟨le_refl 0, by norm_num⟩
  · have hle := weightedFailures_le_totalWeight fr.rule_results
    have hb := ratio_bounds hle h2
    exact ⟨jsRound_nonneg hb.1, jsRound_le_hundred hb.2⟩
  · exact ⟨le_refl 0, by norm_num⟩

/-! ## Claim theorems -/

/-- C3: for every framework result whose counters agree with its outcome
list, the per-framework `risk_score` equals
round((Σ severity weight over FAIL outcomes) / (Σ severity weight over
non-SKIP outcomes) × 100), with weights critical=4, high=3, medium=2,
low=1 and weight 1 for any other severity string, and the score is 0 when
the denominator is 0. -/
theorem c3_framework_risk_score_weighted (fr : FrameworkResult)
    (htotal : fr.total = fr.rule_results.length)
    (hskip : fr.skipped = (fr.rule_results.filter (fun o => o.status = Status.SKIP)).length) :
    (calculateFrameworkRiskScore fr =
      if ((fr.rule_results.filter (fun o => o.status ≠ Status.SKIP)).map
            (fun o => getSeverityWeight o.severity)).sum = 0 then 0
      else jsRound
        ((((fr.rule_results.filter (fun o => o.status = Status.FAIL)).map
            (fun o => getSeverityWeight o.severity)).sum : ℚ) /
         (((fr.rule_results.filter (fun o => o.status ≠ Status.SKIP)).map
            (fun o => getSeverityWeight o.severity)).sum : ℚ) * 100)) ∧
    getSeverityWeight "critical" = 4 ∧ getSeverityWeight "high" = 3 ∧
    getSeverityWeight "medium" = 2 ∧ getSeverityWeight "low" = 1 ∧
    ∀ s, s ∉ (["low", "medium", "high", "critical"] : List String) →
      getSeverityWeight s = 1 := by
  refine ⟨?_, rfl, rfl, rfl, rfl, ?_⟩
  · rw [calculateFrameworkRiskScore_formula fr htotal hskip, totalWeight_eq,
      weightedFailures_eq]
  · intro s hs
    simp only [List.mem_cons, List.not_mem_nil, or_false, not_or] at hs
    unfold getSeverityWeight
    rw [if_neg hs.1, if_neg hs.2.1, if_neg hs.2.2.1, if_neg hs.2.2.2]

/-- Witness for C3: a concrete framework result with one critical FAIL and
one low PASS has `risk_score = round(4/5 × 100) = 80`. -/
theorem c3_witness :
    frExample.total = frExample.rule_results.length ∧
    frExample.skipped =
      (frExample.rule_results.filter (fun o => o.status = Status.SKIP)).length ∧
    calculateFrameworkRiskScore frExample = 80 := by
  refine ⟨rfl, rfl, ?_⟩
  have h := (c3_framework_risk_score_weighted frExample rfl rfl).1
  have hc : getSeverityWeight "critical" = 4 := rfl
  have hl : getSeverityWeight "low" = 1 := rfl
  rw [h]
  norm_num [frExample, outFailCritical, outPassLow, jsRound, hc, hl,
    List.filter, List.map]

lemma runFrameworkRules_compliance (fw : Framework) (code : String)
    (rules : List Rule) (inputData : InputData) :
    (runFrameworkRules fw code rules inputData).compliance_percentage =
      if 0 < rules.length then
        jsRound (((runFrameworkRules fw code rules inputData).passed : ℚ) /
          ((rules.length : ℚ) -
            ((runFrameworkRules fw code rules inputData).skipped : ℚ)) * 100)
      else 0 := rfl

lemma runFrameworkRules_risk_score (fw : Framework) (code : String)
    (rules : List Rule) (inputData : InputData) :
    (runFrameworkRules fw code rules inputData).risk_score =
      calculateFrameworkRiskScore (runFrameworkRules fw code rules inputData) := rfl

lemma runFrameworkRules_passed_le (fw : Framework) (code : String)
    (rules : List Rule) (inputData : InputData) :
    (runFrameworkRules fw code rules inputData).passed ≤ rules.length := by
  rw [runFrameworkRules_passed]
  calc ((rules.map (fun r => executeRule r inputData)).filter
        (fun o => o.status = Status.PASS)).length
      ≤ (rules.map (fun r => executeRule r inputData)).length :=
        List.length_filter_le _ _
    _ = rules.length := List.length_map _ _

/-- Per-framework score shape and bounds for any `runFrameworkRules`
output (shared by the C4 claim theorem). -/
lemma frameworkResult_scores (fw : Framework) (code : String)
    (rules : List Rule) (inputData : InputData) (fr : FrameworkResult)
    (hfr : fr = runFrameworkRules fw code rules inputData) :
    (fr.compliance_percentage =
      if (fr.total : ℤ) - (fr.skipped : ℤ) = 0 then 0
      else jsRound ((fr.passed : ℚ) / ((fr.total : ℚ) - (fr.skipped : ℚ)) * 100)) ∧
    0 ≤ fr.compliance_percentage ∧ fr.compliance_percentage ≤ 100 ∧
    0 ≤ fr.risk_score ∧ fr.risk_score ≤ 100 := by
  subst hfr
  have hskip := runFrameworkRules_skipped fw code rules inputData
  have htot := runFrameworkRules_total fw code rules inputData
  have hple := runFrameworkRules_passed_le fw code rules inputData
  have hrb : 0 ≤ (runFrameworkRules fw code rules inputData).risk_score ∧
      (runFrameworkRules fw code rules inputData).risk_score ≤ 100 := by
    rw [runFrameworkRules_risk_score]
    exact calculateFrameworkRiskScore_bounds _
  have hcp : (runFrameworkRules fw code rules inputData).compliance_percentage =
      if 0 < rules.length then
        jsRound (((runFrameworkRules fw code rules inputData).passed : ℚ) /
          ((rules.length : ℚ) - 0) * 100)
      else 0 := by
    rw [runFrameworkRules_compliance, hskip]
    norm_num
  refine ⟨?_, ?_, ?_, hrb.1, hrb.2⟩
  · rw [hcp, htot, hskip]
    rcases Nat.eq_zero_or_pos rules.length with h0 | hpos
    · rw [if_neg (by omega : ¬ 0 < rules.length), if_pos (by simp [h0])]
    · rw [if_pos hpos, if_neg (by push_cast; omega)]
      norm_num
  · rw [hcp]
    rcases Nat.eq_zero_or_pos rules.length with h0 | hpos
    · rw [if_neg (by omega : ¬ 0 < rules.length)]
    · rw [if_pos hpos, sub_zero]
      exact jsRound_nonneg (ratio_bounds hple hpos).1
  · rw [hcp]
    rcases Nat.eq_zero_or_pos rules.length with h0 | hpos
    · rw [if_neg (by omega : ¬ 0 < rules.length)]
      norm_num
    · rw [if_pos hpos, sub_zero]
      exact jsRound_le_hundred (ratio_bounds hple hpos).2

/-! ## Characterising a successful `executeCompliance` run -/

lemma executeComplianceT_ok {e : Engine} {d : InputData} {opts : Criteria}
    {res : EvalResult} {tr : List String}
    (h : executeComplianceT e (some d) opts = (Except.ok res, tr)) :
    res.total_rules =
      (filterRules e opts.frameworks opts.categories opts.severity).length ∧
    res.overall_risk_score =
      calculateRiskScore res.total_rules res.failed_rules res.skipped_rules ∧
    ∃ frs,
      (runGroups e d (groupRulesByFramework
        (filterRules e opts.frameworks opts.categories opts.severity))).1 =
          Except.ok frs ∧
      res.framework_results = frs ∧
      res.passed_rules = (frs.map (fun p => p.2.passed)).sum ∧
      res.failed_rules = (frs.map (fun p => p.2.failed)).sum ∧
      res.skipped_rules = (frs.map (fun p => p.2.skipped)).sum := by
  unfold executeComplianceT at h
  simp only [summarizeInputData] at h
  rcases hran : (runGroups e d (groupRulesByFramework
      (filterRules e opts.frameworks opts.categories opts.severity))).1 with err | frs
  · rw [hran] at h
    simp at h
  · rw [hran] at h
    rw [Prod.mk.injEq] at h
    have hres := h.1
    rw [Except.ok.injEq] at hres
    subst hres
    refine ⟨rfl, rfl, frs, rfl, rfl, rfl, rfl, rfl⟩

lemma overall_risk_score_formula {e : Engine} {d : InputData}
    {opts : Criteria} {res : EvalResult} {tr : List String}
    (h : executeComplianceT e (some d) opts = (Except.ok res, tr)) :
    res.overall_risk_score =
      if res.total_rules = 0 then 0
      else if (res.total_rules : ℤ) - (res.skipped_rules : ℤ) = 0 then 0
      else jsRound ((res.failed_rules : ℚ) /
        ((res.total_rules : ℚ) - (res.skipped_rules : ℚ)) * 100) := by
  have hc := (executeComplianceT_ok h).2.1
  rw [hc]
  rfl

/-- C5: the top-level `overall_risk_score` of every returned evaluation
result equals round(failed_rules / (total_rules - skipped_rules) × 100)
(the unweighted failure ratio), and is 0 when `total_rules` is 0 or when
`total_rules - skipped_rules` is 0. -/
theorem c5_overall_risk_score_unweighted (e : Engine) (d : InputData)
    (opts : Criteria) (res : EvalResult) (tr : List String)
    (h : executeComplianceT e (some d) opts = (Except.ok res, tr)) :
    res.overall_risk_score =
      if res.total_rules = 0 then 0
      else if (res.total_rules : ℤ) - (res.skipped_rules : ℤ) = 0 then 0
      else jsRound ((res.failed_rules : ℚ) /
        ((res.total_rules : ℚ) - (res.skipped_rules : ℚ)) * 100) :=
  overall_risk_score_formula h

/-- Witness for C5: the sample run (3 rules: one erroring, one passing,
one failing) has `overall_risk_score = round(1/3 × 100) = 33`. -/
theorem c5_witness : sampleRes.overall_risk_score = 33 := by
  have h := c5_overall_risk_score_unweighted sampleEngine sampleInput {}
    sampleRes sampleRun.2 rfl
  rw [h]
  have ht : sampleRes.total_rules = 3 := rfl
  have hf : sampleRes.failed_rules = 1 := rfl
  have hs : sampleRes.skipped_rules = 0 := rfl
  rw [ht, hf, hs]
  norm_num [jsRound]

/-! ## Selection and grouping machinery -/

lemma mem_filterRules_sub (e : Engine) (f c s : Option (List String)) :
    ∀ r ∈ filterRules e f c s, r ∈ e.rules.map (fun p => p.2) := by
  intro r hr
  unfold filterRules at hr
  rcases f with _ | fs <;> rcases c with _ | cs <;> rcases s with _ | ss <;>
    dsimp only at hr <;>
    (try split_ifs at hr) <;>
    (try simp only [List.mem_filter] at hr) <;>
    tauto

lemma groupInsert_key_mem (groups : List (String × List Rule)) (r : Rule) :
    ∀ p ∈ groupInsert groups r, p.1 = r.framework ∨ ∃ q ∈ groups, q.1 = p.1 := by
  intro p hp
  unfold groupInsert at hp
  split_ifs at hp with h
  · rw [List.mem_map] at hp
    obtain ⟨q, hq, hpe⟩ := hp
    by_cases hqr : q.1 = r.framework
    · rw [if_pos hqr] at hpe
      left
      rw [← hpe]
      exact hqr
    · rw [if_neg hqr] at hpe
      right
      exact ⟨q, hq, by rw [hpe]⟩
  · rw [List.mem_append] at hp
    rcases hp with hp | hp
    · right
      exact ⟨p, hp, rfl⟩
    · left
      rw [List.mem_singleton] at hp
      rw [hp]

lemma foldl_groupInsert_keys (rules : List Rule) :
    ∀ (acc : List (String × List Rule)) (p : String × List Rule),
      p ∈ rules.foldl groupInsert acc →
      (∃ q ∈ acc, q.1 = p.1) ∨ ∃ r ∈ rules, r.framework = p.1 := by
  induction rules with
  | nil =>
      intro acc p hp
      exact Or.inl ⟨p, hp, rfl⟩
  | cons r t ih =>
      intro acc p hp
      rw [List.foldl_cons] at hp
      rcases ih (groupInsert acc r) p hp with h | h
      · obtain ⟨q, hq, he⟩ := h
        rcases groupInsert_key_mem acc r q hq with h1 | h1
        · right
          exact ⟨r, List.mem_cons_self r t, by rw [← he, h1]⟩
        · obtain ⟨q', hq', he'⟩ := h1
          exact Or.inl ⟨q', hq', he'.trans he⟩
      · obtain ⟨r', hr', he⟩ := h
        right
        exact ⟨r', List.mem_cons_of_mem r hr', he⟩

lemma groupRulesByFramework_keys (rules : List Rule) :
    ∀ p ∈ groupRulesByFramework rules, ∃ r ∈ rules, r.framework = p.1 := by
  intro p hp
  rcases foldl_groupInsert_keys rules [] p hp with h | h
  · obtain ⟨q, hq, _⟩ := h
    exact absurd hq (List.not_mem_nil q)
  · exact h

lemma runGroups_ok_of_keys (e : Engine) (d : InputData)
    (groups : List (String × List Rule))
    (h : ∀ p ∈ groups, (mapGet e.frameworks p.1).isSome = true) :
    ∃ frs, (runGroups e d groups).1 = Except.ok frs := by
  induction groups with
  | nil => exact ⟨[], rfl⟩
  | cons g rest ih =>
      obtain ⟨code, rs⟩ := g
      obtain ⟨fwk, hfwk⟩ := Option.isSome_iff_exists.mp
        (h (code, rs) (List.mem_cons_self _ _))
      obtain ⟨frs, hfrs⟩ := ih (fun p hp => h p (List.mem_cons_of_mem _ hp))
      refine ⟨(code, runFrameworkRules fwk code rs d) :: frs, ?_⟩
      show (match executeFrameworkRules e code rs d with
        | Except.error err => (Except.error err, [])
        | Except.ok fr =>
            match (runGroups e d rest).1 with
            | Except.error err => (Except.error err, rs.map ruleKey ++ (runGroups e d rest).2)
            | Except.ok frs => (Except.ok ((code, fr) :: frs), rs.map ruleKey ++ (runGroups e d rest).2)).1 =
        Except.ok ((code, runFrameworkRules fwk code rs d) :: frs)
      unfold executeFrameworkRules
      rw [hfwk, hfrs]

lemma executeComplianceT_eq (e : Engine) (d : InputData) (opts : Criteria)
    (frs : List (String × FrameworkResult))
    (hfrs : (runGroups e d (groupRulesByFramework
      (filterRules e opts.frameworks opts.categories opts.severity))).1 =
        Except.ok frs) :
    executeComplianceT e (some d) opts =
      (Except.ok
        { input_data_summary :=
            { data_sources := d.map (fun p => p.1)
              total_size := d.length
              has_system_info := (mapGet d "system_info").isSome
              has_security_config := (mapGet d "security_config").isSome
              has_services := (mapGet d "services").isSome
              has_network := (mapGet d "network").isSome }
          frameworks_tested :=
            (groupRulesByFramework
              (filterRules e opts.frameworks opts.categories opts.severity)).map
                (fun p => p.1)
          total_rules :=
            (filterRules e opts.frameworks opts.categories opts.severity).length
          passed_rules := (frs.map (fun p => p.2.passed)).sum
          failed_rules := (frs.map (fun p => p.2.failed)).sum
          skipped_rules := (frs.map (fun p => p.2.skipped)).sum
          overall_risk_score := calculateRiskScore
            (filterRules e opts.frameworks opts.categories opts.severity).length
            ((frs.map (fun p => p.2.failed)).sum)
            ((frs.map (fun p => p.2.skipped)).sum)
          framework_results := frs
          detailed_results := frs.foldr (fun p acc => p.2.rule_results ++ acc) [] },
       (runGroups e d (groupRulesByFramework
         (filterRules e opts.frameworks opts.categories opts.severity))).2) := by
  unfold executeComplianceT
  dsimp only [summarizeInputData]
  rw [hfrs]

lemma wf_group_keys_registered (e : Engine) (opts : Criteria)
    (hwf : WellFormedEngine e) :
    ∀ p ∈ groupRulesByFramework
      (filterRules e opts.frameworks opts.categories opts.severity),
      (mapGet e.frameworks p.1).isSome = true := by
  intro p hp
  obtain ⟨r, hr, hre⟩ := groupRulesByFramework_keys _ p hp
  have hmem := mem_filterRules_sub e opts.frameworks opts.categories opts.severity r hr
  rw [List.mem_map] at hmem
  obtain ⟨q, hq, hqe⟩ := hmem
  have := hwf q hq
  rw [hqe] at this
  rw [← hre]
  exact this

lemma executeComplianceT_isOk_of_wf (e : Engine) (d : InputData)
    (opts : Criteria) (hwf : WellFormedEngine e) :
    ∃ res tr, executeComplianceT e (some d) opts = (Except.ok res, tr) := by
  obtain ⟨frs, hfrs⟩ := runGroups_ok_of_keys e d
    (groupRulesByFramework (filterRules e opts.frameworks opts.categories opts.severity))
    (wf_group_keys_registered e opts hwf)
  exact ⟨_, _, executeComplianceT_eq e d opts frs hfrs⟩

/-- C1 (evidence of the divergence): a one-rule framework batch whose
critical-severity predicate rejects with "boom" produces a single ERROR
outcome, yet the `failed` counter stays 0 (the counting switch has no
ERROR case), `skipped` stays 0, and the rule's severity weight 4 lands
only in the risk denominator (`weightedFailures = 0`), so
`risk_score = 0` instead of 100. -/
theorem c1_error_outcome_not_counted_as_failure :
    (runFrameworkRules fwA "A" [boomRule] sampleInput).failed = 0 ∧
    (runFrameworkRules fwA "A" [boomRule] sampleInput).skipped = 0 ∧
    ((runFrameworkRules fwA "A" [boomRule] sampleInput).rule_results.map
      (fun o => o.status)) = [Status.ERROR] ∧
    totalWeight (runFrameworkRules fwA "A" [boomRule] sampleInput).rule_results = 4 ∧
    weightedFailures (runFrameworkRules fwA "A" [boomRule] sampleInput).rule_results = 0 ∧
    boomRes.total_rules = 1 ∧
    boomRes.failed_rules = 0 ∧
    boomRes.skipped_rules = 0 ∧
    (boomRes.detailed_results.map (fun o => o.status)) = [Status.ERROR] ∧
    boomRes.overall_risk_score = 0 ∧
    (runFrameworkRules fwA "A" [boomRule] sampleInput).risk_score = 0 := by
  refine ⟨rfl, rfl, rfl, rfl, rfl, rfl, rfl, rfl, rfl, ?_, ?_⟩
  · have h := overall_risk_score_formula
      (show executeComplianceT boomEngine (some sampleInput) {} =
        (Except.ok boomRes, boomRun.2) from rfl)
    rw [h]
    norm_num [show boomRes.total_rules = 1 from rfl,
      show boomRes.failed_rules = 0 from rfl,
      show boomRes.skipped_rules = 0 from rfl, jsRound]
  have htw : totalWeight (runFrameworkRules fwA "A" [boomRule] sampleInput).rule_results
      = 4 := rfl
  have hwf : weightedFailures (runFrameworkRules fwA "A" [boomRule] sampleInput).rule_results
      = 0 := rfl
  have ht : (runFrameworkRules fwA "A" [boomRule] sampleInput).total = 1 := rfl
  have hs : (runFrameworkRules fwA "A" [boomRule] sampleInput).skipped = 0 := rfl
  rw [runFrameworkRules_risk_score]
  unfold calculateFrameworkRiskScore
  dsimp only
  rw [htw, hwf, ht, hs]
  norm_num [jsRound]

/-- C2: a rule predicate that throws is caught per rule: it contributes
exactly one ERROR outcome whose message contains the error's message,
every other selected rule still contributes its own outcome, and (for a
well-formed registry) `executeCompliance` still returns a complete
result. -/
theorem c2_predicate_error_isolated (fw : Framework) (code : String)
    (l1 l2 : List Rule) (r : Rule) (d : InputData) (emsg : String)
    (hr : r.evaluate d = Except.error emsg)
    (e : Engine) (opts : Criteria) (hwf : WellFormedEngine e) :
    ((runFrameworkRules fw code (l1 ++ r :: l2) d).rule_results =
      l1.map (fun x => executeRule x d) ++
        executeRule r d :: l2.map (fun x => executeRule x d)) ∧
    (executeRule r d).status = Status.ERROR ∧
    (executeRule r d).message = "Rule evaluation error: " ++ emsg ∧
    (executeCompliance e (some d) opts).isOk = true := by
  refine ⟨?_, ?_, ?_, ?_⟩
  · rw [runFrameworkRules_rule_results, List.map_append, List.map_cons]
  · rw [executeRule_status, hr]
  · unfold executeRule
    rw [hr]
  · obtain ⟨res, tr, hres⟩ := executeComplianceT_isOk_of_wf e d opts hwf
    unfold executeCompliance
    rw [hres]
    rfl

/-- Witness for C2 at a concrete engine: the "boom" rule's outcome is
ERROR with the message preserved, and the batch still returns a result. -/
theorem c2_witness :
    boomRule.evaluate sampleInput = Except.error "boom" ∧
    (executeRule boomRule sampleInput).status = Status.ERROR ∧
    (executeRule boomRule sampleInput).message = "Rule evaluation error: boom" ∧
    (executeCompliance sampleEngine (some sampleInput) {}).isOk = true := by
  have h := c2_predicate_error_isolated fwA "A" [] [passRule] boomRule sampleInput
    "boom" rfl sampleEngine {} (by intro p hp; fin_cases hp <;> rfl)
  exact ⟨rfl, h.2.1, h.2.2.1, h.2.2.2⟩

lemma mem_filterRules_iff (e : Engine) (f c s : Option (List String)) (r : Rule) :
    r ∈ filterRules e f c s ↔
      (r ∈ e.rules.map (fun p => p.2) ∧
       (∀ fs, f = some fs → 0 < fs.length → r.framework ∈ fs) ∧
       (∀ cs, c = some cs → 0 < cs.length → r.category ∈ cs) ∧
       (∀ ss, s = some ss → 0 < ss.length → r.severity ∈ ss)) := by
  unfold filterRules
  rcases f with _ | fs <;> rcases c with _ | cs <;> rcases s with _ | ss <;>
    dsimp only <;> (try split_ifs) <;>
    simp_all [List.mem_filter] <;> tauto

/-- C6: selection is the exact intersection of the three allow-list
filters (an empty or absent filter is no constraint); empty criteria
select the whole catalog, so `total_rules` is the catalog size; and a
non-empty frameworks filter of only unregistered codes yields a normal
result with `total_rules = 0` rather than an error. -/
theorem c6_selection_semantics (e : Engine) (d : InputData)
    (hwf : WellFormedEngine e) (f c s : Option (List String)) :
    (∀ r : Rule, r ∈ filterRules e f c s ↔
      (r ∈ e.rules.map (fun p => p.2) ∧
       (∀ fs, f = some fs → 0 < fs.length → r.framework ∈ fs) ∧
       (∀ cs, c = some cs → 0 < cs.length → r.category ∈ cs) ∧
       (∀ ss, s = some ss → 0 < ss.length → r.severity ∈ ss))) ∧
    (∃ res tr, executeComplianceT e (some d) {} = (Except.ok res, tr) ∧
      res.total_rules = e.rules.length) ∧
    (∀ fs : List String, 0 < fs.length →
      (∀ code ∈ fs, mapGet e.frameworks code = none) →
      ∃ res tr,
        executeComplianceT e (some d)
          { frameworks := some fs, categories := c, severity := s } =
            (Except.ok res, tr) ∧
        res.total_rules = 0) := by
  refine ⟨fun r => mem_filterRules_iff e f c s r, ?_, ?_⟩
  · obtain ⟨res, tr, hres⟩ := executeComplianceT_isOk_of_wf e d {} hwf
    refine ⟨res, tr, hres, ?_⟩
    rw [(executeComplianceT_ok hres).1]
    show (filterRules e none none none).length = e.rules.length
    rw [show filterRules e none none none = e.rules.map (fun p => p.2) from rfl]
    exact List.length_map _ _
  · intro fs hlen hunreg
    have h1 : filterRules e (some fs) c s = [] := by
      have hbase : (e.rules.map (fun p => p.2)).filter
          (fun r => fs.contains r.framework) = [] := by
        rw [List.filter_eq_nil_iff]
        intro r hrm hcon
        rw [List.mem_map] at hrm
        obtain ⟨q, hq, hqe⟩ := hrm
        have hreg := hwf q hq
        rw [hqe] at hreg
        simp only [List.contains_iff_exists_mem_beq, beq_iff_eq] at hcon
        obtain ⟨a, ha, hae⟩ := hcon
        rw [hae, hunreg a ha] at hreg
        simp at hreg
      unfold filterRules
      dsimp only
      rw [if_pos hlen, hbase]
      rcases c with _ | cs <;> rcases s with _ | ss <;>
        dsimp only <;> (try split_ifs) <;> rfl
    have hfrs : (runGroups e d (groupRulesByFramework
        (filterRules e (some fs) c s))).1 = Except.ok [] := by
      rw [h1]
      rfl
    have heq := executeComplianceT_eq e d
      { frameworks := some fs, categories := c, severity := s } [] hfrs
    refine ⟨_, _, heq, ?_⟩
    show (filterRules e (some fs) c s).length = 0
    rw [h1]
    rfl

/-- Witness for C6: the unregistered-codes run returns a result with
`total_rules = 0`, and the empty-criteria run selects all 3 rules. -/
theorem c6_witness :
    unregisteredRes.total_rules = 0 ∧ sampleRes.total_rules = 3 := by
  have h := c6_selection_semantics sampleEngine sampleInput
    (by intro p hp; fin_cases hp <;> rfl) none none none
  constructor
  · obtain ⟨res, tr, heq, h0⟩ := h.2.2 ["Z"] (by norm_num)
      (by intro cd hcd; fin_cases hcd; rfl)
    have hres : unregisteredRes = res := by
      unfold unregisteredRes unregisteredRun
      rw [show executeComplianceT sampleEngine (some sampleInput)
        { frameworks := some ["Z"] } = (Except.ok res, tr) from heq]
      rfl
    rw [hres]
    exact h0
  · obtain ⟨res, tr, heq, h3⟩ := h.2.1
    have hres : sampleRes = res := by
      unfold sampleRes sampleRun
      rw [show executeComplianceT sampleEngine (some sampleInput) {} =
        (Except.ok res, tr) from heq]
      rfl
    rw [hres]
    exact h3

lemma totalWeight_append (l1 l2 : List RuleOutcome) :
    totalWeight (l1 ++ l2) = totalWeight l1 + totalWeight l2 := by
  rw [totalWeight_eq, totalWeight_eq, totalWeight_eq, List.filter_append,
    List.map_append, List.sum_append]

lemma weightedFailures_append (l1 l2 : List RuleOutcome) :
    weightedFailures (l1 ++ l2) = weightedFailures l1 + weightedFailures l2 := by
  rw [weightedFailures_eq, weightedFailures_eq, weightedFailures_eq,
    List.filter_append, List.map_append, List.sum_append]

/-- C7: raising one FAIL outcome's severity from low to critical (all else
fixed) never decreases the framework risk score. -/
theorem c7_low_to_critical_never_decreases (fr : FrameworkResult)
    (l1 l2 : List RuleOutcome) (o : RuleOutcome)
    (hstat : o.status = Status.FAIL) (hsev : o.severity = "low") :
    calculateFrameworkRiskScore { fr with rule_results := l1 ++ o :: l2 } ≤
      calculateFrameworkRiskScore
        { fr with rule_results := l1 ++ { o with severity := "critical" } :: l2 } := by
  have hns : ¬ o.status = Status.SKIP := by rw [hstat]; intro hc; cases hc
  have h1 : totalWeight (l1 ++ o :: l2) =
      totalWeight l1 + totalWeight l2 + 1 := by
    rw [totalWeight_append, totalWeight_cons, if_neg hns, hsev]
    show totalWeight l1 + (1 + totalWeight l2) = _
    omega
  have h2 : totalWeight (l1 ++ { o with severity := "critical" } :: l2) =
      totalWeight l1 + totalWeight l2 + 4 := by
    rw [totalWeight_append, totalWeight_cons, if_neg hns]
    show totalWeight l1 + (4 + totalWeight l2) = _
    omega
  have h3 : weightedFailures (l1 ++ o :: l2) =
      weightedFailures l1 + weightedFailures l2 + 1 := by
    rw [weightedFailures_append, weightedFailures_cons, if_pos hstat, hsev]
    show weightedFailures l1 + (1 + weightedFailures l2) = _
    omega
  have h4 : weightedFailures (l1 ++ { o with severity := "critical" } :: l2) =
      weightedFailures l1 + weightedFailures l2 + 4 := by
    rw [weightedFailures_append, weightedFailures_cons, if_pos hstat]
    show weightedFailures l1 + (4 + weightedFailures l2) = _
    omega
  have hB : weightedFailures l1 + weightedFailures l2 ≤
      totalWeight l1 + totalWeight l2 :=
    Nat.add_le_add (weightedFailures_le_totalWeight l1)
      (weightedFailures_le_totalWeight l2)
  unfold calculateFrameworkRiskScore
  dsimp only
  split_ifs with hC hp1 hp2 hp3
  · exact le_refl 0
  · rw [h1, h2, h3, h4]
    apply jsRound_mono
    set A := totalWeight l1 + totalWeight l2 with hA
    set B := weightedFailures l1 + weightedFailures l2 with hBdef
    have hA1 : (0 : ℚ) < (A : ℚ) + 1 := by positivity
    have hA4 : (0 : ℚ) < (A : ℚ) + 4 := by positivity
    have hBA : (B : ℚ) ≤ (A : ℚ) := by exact_mod_cast hB
    have hfrac : ((B : ℚ) + 1) / ((A : ℚ) + 1) ≤ ((B : ℚ) + 4) / ((A : ℚ) + 4) := by
      rw [div_le_div_iff₀ hA1 hA4]
      nlinarith
    have : ((B + 1 : ℕ) : ℚ) / ((A + 1 : ℕ) : ℚ) ≤
        ((B + 4 : ℕ) : ℚ) / ((A + 4 : ℕ) : ℚ) := by
      push_cast
      exact hfrac
    exact mul_le_mul_of_nonneg_right this (by norm_num)
  · rw [h2] at hp2
    omega
  · rw [h1] at hp1
    omega
  · exact le_refl 0

/-- Witness for C7: upgrading the failing low rule to critical raises the
sample framework's risk score (50 → 80 here), never lowering it. -/
theorem c7_witness :
    calculateFrameworkRiskScore
        { frExample with rule_results := [outFailLow, outPassLow] } ≤
      calculateFrameworkRiskScore
        { frExample with rule_results :=
            [{ outFailLow with severity := "critical" }, outPassLow] } :=
  c7_low_to_critical_never_decreases frExample [] [outPassLow] outFailLow rfl rfl

/-! ## Registry (`Map`) lemmas -/

lemma mapGet_cons (p : String × α) (t : List (String × α)) (k : String) :
    mapGet (p :: t) k = if p.1 = k then some p.2 else mapGet t k := by
  unfold mapGet
  by_cases h : p.1 = k
  · rw [List.find?_cons_of_pos _ (by simpa using h), if_pos h]
    rfl
  · rw [List.find?_cons_of_neg _ (by simpa using h), if_neg h]

lemma mapGet_map_replace (t : List (String × α)) (k : String) (v : α)
    (k' : String) (h : k' ≠ k) :
    mapGet (t.map (fun p => if p.1 = k then (k, v) else p)) k' = mapGet t k' := by
  induction t with
  | nil => rfl
  | cons p t ih =>
      rw [List.map_cons, mapGet_cons, mapGet_cons]
      by_cases hp : p.1 = k
      · rw [if_pos hp]
        rw [show ((k, v) : String × α).1 = k from rfl]
        rw [if_neg (fun he : k = k' => h he.symm),
          if_neg (by rw [hp]; exact fun he : k = k' => h he.symm)]
        exact ih
      · rw [if_neg hp]
        by_cases hk : p.1 = k'
        · rw [if_pos hk, if_pos hk]
        · rw [if_neg hk, if_neg hk]
          exact ih

lemma mapGet_map_replace_self (t : List (String × α)) (k : String) (v : α)
    (hany : t.any (fun p => p.1 = k) = true) :
    mapGet (t.map (fun p => if p.1 = k then (k, v) else p)) k = some v := by
  induction t with
  | nil => simp at hany
  | cons p t ih =>
      rw [List.map_cons, mapGet_cons]
      by_cases hp : p.1 = k
      · rw [if_pos hp]
        rw [show ((k, v) : String × α).1 = k from rfl, if_pos rfl]
      · rw [if_neg hp, if_neg hp]
        apply ih
        simpa [List.any_cons, hp] using hany

lemma mapGet_append_single (m : List (String × α)) (k : String) (v : α)
    (k' : String) (h : k' ≠ k) :
    mapGet (m ++ [(k, v)]) k' = mapGet m k' := by
  induction m with
  | nil =>
      rw [List.nil_append, mapGet_cons,
        if_neg (fun he : ((k, v) : String × α).1 = k' => h he.symm)]
  | cons p t ih =>
      rw [List.cons_append, mapGet_cons, mapGet_cons]
      by_cases hp : p.1 = k'
      · rw [if_pos hp, if_pos hp]
      · rw [if_neg hp, if_neg hp]
        exact ih

lemma mapGet_append_single_self (m : List (String × α)) (k : String) (v : α)
    (hnone : mapGet m k = none) :
    mapGet (m ++ [(k, v)]) k = some v := by
  induction m with
  | nil =>
      rw [List.nil_append, mapGet_cons, if_pos rfl]
  | cons p t ih =>
      rw [mapGet_cons] at hnone
      by_cases hp : p.1 = k
      · rw [if_pos hp] at hnone
        cases hnone
      · rw [if_neg hp] at hnone
        rw [List.cons_append, mapGet_cons, if_neg hp]
        exact ih hnone

lemma mapGet_mapSet_self (m : List (String × α)) (k : String) (v : α) :
    mapGet (mapSet m k v) k = some v := by
  unfold mapSet
  by_cases hany : m.any (fun p => p.1 = k)
  · rw [if_pos hany]
    exact mapGet_map_replace_self m k v hany
  · rw [if_neg hany]
    apply mapGet_append_single_self
    rw [List.any_eq_true] at hany
    push_neg at hany
    unfold mapGet
    rw [List.find?_eq_none.mpr]
    · rfl
    · intro p hp
      exact hany p hp

lemma mapGet_mapSet_other (m : List (String × α)) (k : String) (v : α)
    (k' : String) (h : k' ≠ k) :
    mapGet (mapSet m k v) k' = mapGet m k' := by
  unfold mapSet
  by_cases hany : m.any (fun p => p.1 = k)
  · rw [if_pos hany]
    exact mapGet_map_replace m k v k' h
  · rw [if_neg hany]
    exact mapGet_append_single m k v k' h

/-- C8: `registerRule` throws exactly when the rule's framework code is
unregistered; a failing call leaves the registries untouched (the throw
happens before any insertion), and a successful call inserts or replaces
the rule under the composite key `framework:code` without disturbing any
other key or the framework registry. -/
theorem c8_registerRule_spec (e : Engine) (r : Rule) :
    ((∃ msg, registerRule e r = Except.error msg) ↔
      mapGet e.frameworks r.framework = none) ∧
    (∀ e', registerRule e r = Except.ok e' →
      e'.frameworks = e.frameworks ∧
      mapGet e'.rules (ruleKey r) = some r ∧
      ∀ k, k ≠ ruleKey r → mapGet e'.rules k = mapGet e.rules k) := by
  constructor
  · unfold registerRule
    by_cases hreg : (mapGet e.frameworks r.framework).isSome
    · rw [if_pos hreg]
      constructor
      · intro hex
        obtain ⟨msg, hmsg⟩ := hex
        cases hmsg
      · intro hnone
        rw [hnone] at hreg
        cases hreg
    · rw [if_neg hreg]
      constructor
      · intro _
        exact Option.not_isSome_iff_eq_none.mp hreg
      · intro _
        exact ⟨_, rfl⟩
  · intro e' he'
    unfold registerRule at he'
    by_cases hreg : (mapGet e.frameworks r.framework).isSome
    · rw [if_pos hreg] at he'
      rw [Except.ok.injEq] at he'
      subst he'
      exact ⟨rfl, mapGet_mapSet_self _ _ _,
        fun k hk => mapGet_mapSet_other _ _ _ _ hk⟩
    · rw [if_neg hreg] at he'
      cases he'

/-- Witness for C8: registering `passRule` into an engine that only knows
framework A succeeds and stores the rule under "A:R2", while registering
it into an empty engine throws. -/
theorem c8_witness :
    mapGet ((registerRule { frameworks := [("A", fwA)] } passRule).toOption.getD
      { } : Engine).rules (ruleKey passRule) = some passRule ∧
    (∃ msg, registerRule ({ } : Engine) passRule = Except.error msg) := by
  constructor
  · exact ((c8_registerRule_spec { frameworks := [("A", fwA)] } passRule).2 _
      rfl).2.1
  · exact (c8_registerRule_spec { } passRule).1.mpr rfl

lemma runGroups_ok_mem (e : Engine) (d : InputData) :
    ∀ (groups : List (String × List Rule)) (frs : List (String × FrameworkResult)),
      (runGroups e d groups).1 = Except.ok frs →
      ∀ p ∈ frs, ∃ fwk rs, p.2 = runFrameworkRules fwk p.1 rs d := by
  intro groups
  induction groups with
  | nil =>
      intro frs h p hp
      have : ([] : List (String × FrameworkResult)) = frs := by
        rw [← Except.ok.injEq]
        exact h
      rw [← this] at hp
      exact absurd hp (List.not_mem_nil p)
  | cons g rest ih =>
      obtain ⟨code, rs⟩ := g
      intro frs h p hp
      rw [show (runGroups e d ((code, rs) :: rest)) =
        (match executeFrameworkRules e code rs d with
          | Except.error err => (Except.error err, [])
          | Except.ok fr =>
              match (runGroups e d rest).1 with
              | Except.error err =>
                  (Except.error err, rs.map ruleKey ++ (runGroups e d rest).2)
              | Except.ok frs =>
                  (Except.ok ((code, fr) :: frs),
                    rs.map ruleKey ++ (runGroups e d rest).2)) from rfl] at h
      cases hE : executeFrameworkRules e code rs d with
      | error err =>
          rw [hE] at h
          cases h
      | ok fr =>
          rw [hE] at h
          cases hR : (runGroups e d rest).1 with
          | error err =>
              rw [hR] at h
              cases h
          | ok frs' =>
              rw [hR] at h
              have hfrs : (code, fr) :: frs' = frs := by
                rw [← Except.ok.injEq]
                exact h
              rw [← hfrs] at hp
              rcases List.mem_cons.mp hp with hphead | hptail
              · unfold executeFrameworkRules at hE
                cases hg : mapGet e.frameworks code with
                | none =>
                    rw [hg] at hE
                    cases hE
                | some fwk =>
                    rw [hg] at hE
                    rw [Except.ok.injEq] at hE
                    refine ⟨fwk, rs, ?_⟩
                    rw [hphead]
                    rw [show ((code, fr) : String × FrameworkResult).2 = fr from rfl,
                      show ((code, fr) : String × FrameworkResult).1 = code from rfl]
                    exact hE.symm
              · exact ih frs' hR p hptail

/-- C9: `executeRule` only ever returns PASS, FAIL or ERROR — never SKIP —
so the `skipped` counter of every framework result and the top-level
`skipped_rules` of every returned evaluation result are 0. -/
theorem c9_skip_never_produced :
    (∀ (r : Rule) (d : InputData),
      ((executeRule r d).status = Status.PASS ∨
       (executeRule r d).status = Status.FAIL ∨
       (executeRule r d).status = Status.ERROR) ∧
      (executeRule r d).status ≠ Status.SKIP) ∧
    (∀ (fw : Framework) (code : String) (rules : List Rule) (d : InputData),
      (runFrameworkRules fw code rules d).skipped = 0) ∧
    (∀ (e : Engine) (d : InputData) (opts : Criteria) (res : EvalResult)
        (tr : List String),
      executeComplianceT e (some d) opts = (Except.ok res, tr) →
      res.skipped_rules = 0) := by
  refine ⟨?_, runFrameworkRules_skipped, ?_⟩
  · intro r d
    constructor
    · rw [executeRule_status]
      cases r.evaluate d with
      | ok ev => by_cases hp : ev.passed <;> simp [hp]
      | error err => simp
    · exact executeRule_status_ne_skip r d
  · intro e d opts res tr h
    obtain ⟨-, -, frs, hfrs, -, -, -, hskip⟩ := executeComplianceT_ok h
    rw [hskip]
    apply List.sum_eq_zero
    intro x hx
    rw [List.mem_map] at hx
    obtain ⟨p, hp, hpe⟩ := hx
    obtain ⟨fwk, rs, hrun⟩ := runGroups_ok_mem e d _ frs hfrs p hp
    rw [← hpe, hrun]
    exact runFrameworkRules_skipped fwk p.1 rs d

/-- Witness for C9: the boom rule's outcome is not SKIP, and the sample
run's `skipped_rules` is 0. -/
theorem c9_witness :
    (executeRule boomRule sampleInput).status ≠ Status.SKIP ∧
    sampleRes.skipped_rules = 0 := by
  refine ⟨(c9_skip_never_produced.1 boomRule sampleInput).2, ?_⟩
  exact c9_skip_never_produced.2.2 sampleEngine sampleInput {} sampleRes
    sampleRun.2 rfl

/-- C10: a `null`/`undefined` snapshot makes `executeCompliance` throw
while building the input summary (`Object.keys` on `null`), before any
rule is selected or any predicate is invoked (the invocation trace is
empty), so the caller receives no result — whereas a non-null snapshot
always passes the summary step, with absent sections merely reported as
`false` flags and the snapshot handed to the rules as-is. -/
theorem c10_null_snapshot_throws_before_rules :
    (∀ (e : Engine) (opts : Criteria),
      executeComplianceT e none opts =
        (Except.error
          (JsErr.typeError "Cannot convert undefined or null to object"), [])) ∧
    (∀ d : InputData, (summarizeInputData (some d)).isOk = true) ∧
    summarizeInputData (some ([] : InputData)) =
      Except.ok
        { data_sources := [], total_size := 0, has_system_info := false
          has_security_config := false, has_services := false
          has_network := false } ∧
    (∀ (r : Rule) (d : InputData),
      (executeRule r d).status =
        match r.evaluate d with
        | Except.ok ev => if ev.passed then Status.PASS else Status.FAIL
        | Except.error _ => Status.ERROR) := by
  exact ⟨fun e opts => rfl, fun d => rfl, rfl, executeRule_status⟩

/-- C4: every framework result produced by a run of `executeCompliance`
(equivalently, any `runFrameworkRules` output) has
`compliance_percentage = round(passed / (total - skipped) × 100)`, 0 when
the denominator `total - skipped` is 0, and both `compliance_percentage`
and `risk_score` lie in [0, 100]. -/
theorem c4_compliance_percentage_and_bounds (fw : Framework) (code : String)
    (rules : List Rule) (inputData : InputData) (fr : FrameworkResult)
    (hfr : fr = runFrameworkRules fw code rules inputData) :
    ((fr.compliance_percentage =
      if (fr.total : ℤ) - (fr.skipped : ℤ) = 0 then 0
      else jsRound ((fr.passed : ℚ) / ((fr.total : ℚ) - (fr.skipped : ℚ)) * 100)) ∧
    0 ≤ fr.compliance_percentage ∧ fr.compliance_percentage ≤ 100 ∧
    0 ≤ fr.risk_score ∧ fr.risk_score ≤ 100) ∧
    (∀ (e : Engine) (d : InputData) (opts : Criteria) (res : EvalResult)
        (tr : List String),
      executeComplianceT e (some d) opts = (Except.ok res, tr) →
      ∀ p ∈ res.framework_results,
        (p.2.compliance_percentage =
          if (p.2.total : ℤ) - (p.2.skipped : ℤ) = 0 then 0
          else jsRound ((p.2.passed : ℚ) /
            ((p.2.total : ℚ) - (p.2.skipped : ℚ)) * 100)) ∧
        0 ≤ p.2.compliance_percentage ∧ p.2.compliance_percentage ≤ 100 ∧
        0 ≤ p.2.risk_score ∧ p.2.risk_score ≤ 100) := by
  constructor
  · exact frameworkResult_scores fw code rules inputData fr hfr
  · intro e d opts res tr h p hp
    obtain ⟨-, -, frs, hfrs, hfr2, -, -, -⟩ := executeComplianceT_ok h
    rw [hfr2] at hp
    obtain ⟨fwk, rs, hrun⟩ := runGroups_ok_mem e d _ frs hfrs p hp
    exact frameworkResult_scores fwk p.1 rs d p.2 hrun

/-- Witness for C4: concrete evaluation of one passing and one erroring
rule — compliance_percentage is 50 and the bounds hold. -/
theorem c4_witness :
    (runFrameworkRules fwA "A" [passRule, boomRule] sampleInput).compliance_percentage = 50 ∧
    0 ≤ (runFrameworkRules fwA "A" [passRule, boomRule] sampleInput).compliance_percentage ∧
    (runFrameworkRules fwA "A" [passRule, boomRule] sampleInput).risk_score ≤ 100 := by
  have h := (c4_compliance_percentage_and_bounds fwA "A" [passRule, boomRule]
    sampleInput _ rfl).1
  refine ⟨?_, h.2.1, h.2.2.2.2⟩
  rw [h.1]
  have hp : (runFrameworkRules fwA "A" [passRule, boomRule] sampleInput).passed = 1 := rfl
  have ht : (runFrameworkRules fwA "A" [passRule, boomRule] sampleInput).total = 2 := rfl
  have hs : (runFrameworkRules fwA "A" [passRule, boomRule] sampleInput).skipped = 0 := rfl
  rw [hp, ht, hs]
  norm_num [jsRound]
